import Mathlib

/-!
Verification of the robocop linting engine core against its specification.

The definitions below are a shallow embedding of the Python sources:
  * `src/robocop/utils/disablers.py`  (the disabler engine),
  * `src/robocop/run.py`              (the scan pipeline, registry, configure),
  * `src/robocop/reports/reports.py`  (the reporting subsystem).

Python strings are Lean `String`s (processed as `List Char`), line numbers
are `Int` (the source initialises `lineno = -1` before enumerating lines
from 1), Python dicts keyed by strings are insertion-ordered association
lists `List (String × _)` (first match wins on lookup, as in a dict with
unique keys; `defaultdict` access appends a fresh default entry), and
raising is `Except`.
-/

set_option maxRecDepth 4000

namespace Robocop

/-! ### Association-list primitives mirroring Python dict behaviour -/

/-- First-match lookup, as in a Python dict (keys are unique in practice). -/
def alistFind {α : Type} (k : String) : List (String × α) → Option α
  | [] => none
  | (k', v) :: rest => if k' = k then some v else alistFind k rest

/-- Python dict item assignment: replace the first matching entry, or append. -/
def alistSet {α : Type} (k : String) (v : α) : List (String × α) → List (String × α)
  | [] => [(k, v)]
  | (k', v') :: rest => if k' = k then (k, v) :: rest else (k', v') :: alistSet k v rest

/-- The keys of the dict, in insertion order. -/
def keysOf {α : Type} (st : List (String × α)) : List String :=
  st.map (fun p => p.1)

/-- Python `key in dict`. -/
def containsKey {α : Type} (st : List (String × α)) (k : String) : Bool :=
  (alistFind k st).isSome

/-! ### String helpers used by the disabler parser -/

/-- Python `s.split(sep)` (all occurrences, empty parts kept). -/
def splitOnChar (sep : Char) : List Char → List (List Char)
  | [] => [[]]
  | c :: rest =>
    let r := splitOnChar sep rest
    if c = sep then [] :: r
    else
      match r with
      | h :: t => (c :: h) :: t
      | [] => [[c]]

/-- Try to remove the literal `pat` from the front of `l`. -/
def dropLead : List Char → List Char → Option (List Char)
  | [], rest => some rest
  | _ :: _, [] => none
  | p :: ps, c :: cs => if p = c then dropLead ps cs else none

/-- Characters matched by the regex class `[\w\-,]` (rule names are ASCII). -/
def isRulesChar (c : Char) : Bool :=
  c.isAlphanum || c = '_' || c = '-' || c = ','

/-- The alternation `(disable|enable)` of `disabler_pattern`. -/
def matchWord (l : List Char) : Option (String × List Char) :=
  match dropLead "disable".toList l with
  | some r => some ("disable", r)
  | none =>
    match dropLead "enable".toList l with
    | some r => some ("enable", r)
    | none => none

/-- One attempted match of `robocop: (?P<disabler>disable|enable)=?(?P<rules>[\w\-,]*)`
at the head of `l`; returns the two captured groups. -/
def matchAt (l : List Char) : Option (String × String) :=
  match dropLead "robocop: ".toList l with
  | none => none
  | some r1 =>
    match matchWord r1 with
    | none => none
    | some (w, r2) =>
      let r3 := match r2 with
        | '=' :: rest => rest
        | _ => r2
      some (w, String.mk (r3.takeWhile isRulesChar))

/-- `re.search`: the leftmost successful match of `disabler_pattern`. -/
def searchDisabler : List Char → Option (String × String)
  | [] => none
  | c :: rest =>
    match matchAt (c :: rest) with
    | some r => some r
    | none => searchDisabler rest

/-- Python `line.split('#', maxsplit=1)`: the statement before the first `#`
and the comment after it. -/
def splitHash (line : String) : String × String :=
  (String.mk (line.toList.takeWhile (fun c => c != '#')),
   String.mk ((line.toList.dropWhile (fun c => c != '#')).drop 1))

/-! ### The disabler engine (`src/robocop/utils/disablers.py`) -/

/-- `DisablersInFile`: per-rule disabler data (`lastblock`, `lines`, `blocks`).
`lines` is a Python `set`; we keep insertion order and never add duplicates. -/
structure DisablersInFile where
  lastblock : Int
  lines : List Int
  blocks : List (Int × Int)
deriving DecidableEq, Repr

def defaultDisabler : DisablersInFile := ⟨-1, [], []⟩

/-- The `self.rules` defaultdict of `DisablersFinder`. -/
abbrev DState := List (String × DisablersInFile)

/-- `self.rules[rule]` on the defaultdict: return the entry and the
possibly-extended dict (a fresh default entry is appended when absent). -/
def getRule (st : DState) (r : String) : DisablersInFile × DState :=
  match alistFind r st with
  | some d => (d, st)
  | none => (defaultDisabler, st ++ [(r, defaultDisabler)])

/-- `_start_block`: open a block for `rule` at `lineno` unless one is open. -/
def startBlock (st : DState) (r : String) (lineno : Int) : DState :=
  let p := getRule st r
  if p.1.lastblock = -1 then alistSet r { p.1 with lastblock := lineno } p.2 else p.2

/-- `_add_inline_disabler`: add `lineno` to the rule's disabled-lines set. -/
def addInline (st : DState) (r : String) (lineno : Int) : DState :=
  let p := getRule st r
  alistSet r { p.1 with lines := if p.1.lines.contains lineno then p.1.lines else p.1.lines ++ [lineno] } p.2

/-- The non-cascading body of `_end_block`: if `rule` is a known key and has
an open block, close it as `(lastblock, lineno)` and clear the marker. -/
def endBlockCore (st : DState) (r : String) (lineno : Int) : DState :=
  match alistFind r st with
  | none => st
  | some d =>
    if d.lastblock ≠ -1 then
      alistSet r { d with lastblock := -1, blocks := d.blocks ++ [(d.lastblock, lineno)] } st
    else st

/-- `_end_all_blocks`: close every other rule's open block at `lineno`
(`_end_block` on a key different from `"all"` never cascades). -/
def endAllBlocks (st : DState) (lineno : Int) : DState :=
  (keysOf st).foldl (fun s k => if k = "all" then s else endBlockCore s k lineno) st

/-- `_end_block`: returns immediately when `rule` is not a key of the dict;
otherwise closes the rule's open block and, for the `"all"` key, cascades. -/
def endBlock (st : DState) (r : String) (lineno : Int) : DState :=
  match alistFind r st with
  | none => st
  | some _ =>
    let st1 := endBlockCore st r lineno
    if r = "all" then endAllBlocks st1 lineno else st1

/-- `_parse_line`: split at the first `#`, search the comment for the
disabler pattern, and apply the directive. -/
def parseLine (st : DState) (line : String) (lineno : Int) : DState :=
  let sc := splitHash line
  match searchDisabler sc.2.toList with
  | none => st
  | some (w, rulesStr) =>
    let ruleList := if rulesStr = "" then ["all"]
      else (splitOnChar ',' rulesStr.toList).map String.mk
    let block := sc.1 = ""
    if w = "disable" then
      ruleList.foldl (fun s r => if block then startBlock s r lineno else addInline s r lineno) st
    else if w = "enable" ∧ block then
      ruleList.foldl (fun s r => endBlock s r lineno) st
    else st

/-- The loop of `_parse_file`: lines are enumerated from `lineno`; only lines
containing `#` are inspected. -/
def parseFrom : DState → Int → List String → DState
  | st, _, [] => st
  | st, n, l :: rest =>
    parseFrom (if l.toList.contains '#' then parseLine st l n else st) (n + 1) rest

/-- The dict state after the line loop of `_parse_file` (lines count from 1). -/
def parseLinesState (ls : List String) : DState :=
  parseFrom [] 1 ls

/-- The value of `lineno` after the loop: `-1` for an empty file, else the
number of lines. -/
def lastLineno (ls : List String) : Int :=
  if ls.isEmpty then -1 else (ls.length : Int)

/-- `_is_file_disabled`: the `"all"` key has exactly one closed block and it
equals `(0, last_line)`. -/
def isFileDisabled (st : DState) (lastLine : Int) : Bool :=
  match alistFind "all" st with
  | none => false
  | some d =>
    match d.blocks with
    | [b] => b = (0, lastLine)
    | _ => false

/-- The observable state of a constructed `DisablersFinder`. -/
structure DisablersFinder where
  file_disabled : Bool
  any_disabler : Bool
  rules : DState
deriving DecidableEq, Repr

/-- `DisablersFinder.__init__` / `_parse_file`. `none` models an `OSError`
while opening the file: the handler swallows it, leaving the freshly
initialised attributes untouched. -/
def DisablersFinder.build (source : Option (List String)) : DisablersFinder :=
  match source with
  | none => { file_disabled := false, any_disabler := false, rules := [] }
  | some ls =>
    let st := parseLinesState ls
    let n := lastLineno ls
    let st2 := endBlock st "all" n
    { file_disabled := isFileDisabled st2 n,
      any_disabler := st2.length ≠ 0,
      rules := st2 }

/-- A finding as consumed by the disabler and the report filter. -/
structure RuleMsg where
  line : Int
  msg_id : String
  name : String
  enabled : Bool
deriving DecidableEq, Repr

/-- The Boolean test of `is_line_disabled`: the line is in the rule's
disabled-lines set or inside one of its closed blocks (inclusive bounds). -/
def qline (d : DisablersInFile) (line : Int) : Bool :=
  d.lines.contains line ||
    d.blocks.any (fun b => decide (b.1 ≤ line) && decide (line ≤ b.2))

/-- `is_line_disabled`, with the defaultdict access made explicit: the call
mutates the dict when `rule` is not yet a key. -/
def is_line_disabledM (st : DState) (line : Int) (r : String) : Bool × DState :=
  let p := getRule st r
  (qline p.1 line, p.2)

/-- `is_msg_disabled`, threading the dict state through the three guarded
`is_line_disabled` calls (`"all"`, then `msg_id`, then `name`). -/
def is_msg_disabledM (f : DisablersFinder) (msg : RuleMsg) : Bool × DisablersFinder :=
  if f.any_disabler = false then (false, f)
  else
    let s1 := if containsKey f.rules "all"
      then is_line_disabledM f.rules msg.line "all" else (false, f.rules)
    if s1.1 then (true, { f with rules := s1.2 })
    else
      let s2 := if containsKey s1.2 msg.msg_id
        then is_line_disabledM s1.2 msg.line msg.msg_id else (false, s1.2)
      if s2.1 then (true, { f with rules := s2.2 })
      else
        let s3 := if containsKey s2.2 msg.name
          then is_line_disabledM s2.2 msg.line msg.name else (false, s2.2)
        (s3.1, { f with rules := s3.2 })

/-- The Boolean answer of `is_msg_disabled`. -/
def is_msg_disabled (f : DisablersFinder) (msg : RuleMsg) : Bool :=
  (is_msg_disabledM f msg).1

/-! ### The reporting subsystem (`src/robocop/reports/reports.py`) -/

/-- `RulesByIdReport.add_message`: `message_counter[fullname] += 1` on a
`defaultdict(int)` (insertion-ordered). -/
def addMessage (counter : List (String × Nat)) (fullname : String) : List (String × Nat) :=
  match alistFind fullname counter with
  | some c => alistSet fullname (c + 1) counter
  | none => counter ++ [(fullname, 1)]

/-- Stable insertion keeping counts descending: a new item goes after every
earlier item whose count is at least as large. -/
def insertDesc (x : String × Nat) : List (String × Nat) → List (String × Nat)
  | [] => [x]
  | y :: rest => if x.2 > y.2 then x :: y :: rest else y :: insertDesc x rest

/-- Python `sorted(items, key=itemgetter(1), reverse=True)`: a stable sort by
descending count. -/
def sortDesc (l : List (String × Nat)) : List (String × Nat) :=
  l.foldl (fun acc x => insertDesc x acc) []

/-- Python string `<`: lexicographic comparison by code point. -/
def strLtB : List Char → List Char → Bool
  | [], [] => false
  | [], _ :: _ => true
  | _ :: _, [] => false
  | x :: xs, y :: ys =>
    if x.toNat < y.toNat then true
    else if y.toNat < x.toNat then false
    else strLtB xs ys

/-- Python `max(items, key=itemgetter(0))`: the first item whose *string* is
lexicographically maximal (`max` replaces only on strictly greater). -/
def maxByFirst (x : String × Nat) (l : List (String × Nat)) : String × Nat :=
  l.foldl (fun acc y => if strLtB acc.1.toList y.1.toList then y else acc) x

/-- Python `f"{message:{width}}"` for a string: left-justify, pad with spaces. -/
def padField (s : String) (width : Nat) : String :=
  s.pushn ' ' (width - s.length)

/-- `RulesByIdReport.get_report`. -/
def getReport (counter : List (String × Nat)) : String :=
  let ordered := sortDesc counter
  match ordered with
  | [] => "\nIssues by ids:\n" ++ "No issues found\n"
  | x :: rest =>
    let longest_name := (maxByFirst x rest).1.length
    "\nIssues by ids:\n" ++
      String.intercalate "\n"
        ((x :: rest).map (fun p => padField p.1 longest_name ++ " : " ++ toString p.2))

/-! ### The scan pipeline (`src/robocop/run.py`) -/

/-- The per-file inputs of the pipeline.  The raw text feeds the disabler
(`none` = unreadable); `typeChanged` models `scanned_with_type != type`
after the classifier pre-pass; the two finding lists are what the checker
collaborators emit for this file in the main scan and in the corrective
re-scan by the parse-validity checker. -/
structure RFile where
  text : Option (List String)
  typeChanged : Bool
  mainFindings : List RuleMsg
  parseFindings : List RuleMsg
deriving DecidableEq

/-- The linter state the pipeline threads: the single `self.disabler` slot
and the findings accepted by `Robocop.report`. -/
structure LinterState where
  disabler : DisablersFinder
  output : List RuleMsg
deriving DecidableEq

/-- The exception raised by `Robocop.report` for every finding that is not
disabled from the cli: run.py line 110 evaluates
`self.disabler.is_rule_disabled(rule_msg)`, but `DisablersFinder` defines no
attribute `is_rule_disabled` (its suppression queries are `is_msg_disabled`
and `is_line_disabled`, and there is no `__getattr__`), so the attribute
lookup itself raises `AttributeError`. -/
def attrErrMsg : String :=
  "AttributeError: DisablersFinder has no attribute is_rule_disabled"

/-- `Robocop.report`: a finding disabled from the cli is skipped before the
disabler is consulted; any other finding reaches the
`self.disabler.is_rule_disabled` lookup, which raises `AttributeError`
(modelled as `Except.error`).  No finding is ever forwarded to reports. -/
def reportMsg (st : LinterState) (m : RuleMsg) : Except String LinterState :=
  if m.enabled = false then Except.ok st
  else Except.error attrErrMsg

/-- Reporting a list of findings in order; the first raised exception
propagates (aborting the scan, as an uncaught exception does in run.py). -/
def runMsgs : LinterState → List RuleMsg → Except String LinterState
  | st, [] => Except.ok st
  | st, m :: rest =>
    match reportMsg st m with
    | Except.error e => Except.error e
    | Except.ok st2 => runMsgs st2 rest

/-- One iteration of the `run_checks` file loop: `register_disablers`
replaces `self.disabler`, a whole-file-disabled file is skipped, otherwise
the checkers scan and report. -/
def scanFile (st : LinterState) (f : RFile) : Except String LinterState :=
  let st1 : LinterState := { st with disabler := DisablersFinder.build f.text }
  if st1.disabler.file_disabled then Except.ok st1
  else runMsgs st1 f.mainFindings

/-- The main loop of `run_checks`; an exception aborts the remaining files. -/
def mainPass : LinterState → List RFile → Except String LinterState
  | st, [] => Except.ok st
  | st, f :: rest =>
    match scanFile st f with
    | Except.error e => Except.error e
    | Except.ok st2 => mainPass st2 rest

/-- One iteration of `run_checks_on_files_with_type_changed`: for a parsed
file whose type changed, the parse-validity checker re-scans and reports —
with no new `register_disablers` call. -/
def rescanStep (st : LinterState) (f : RFile) : Except String LinterState :=
  if (DisablersFinder.build f.text).file_disabled then Except.ok st
  else if f.typeChanged then runMsgs st f.parseFindings
  else Except.ok st

/-- The corrective re-scan loop. -/
def rescanPass : LinterState → List RFile → Except String LinterState
  | st, [] => Except.ok st
  | st, f :: rest =>
    match rescanStep st f with
    | Except.error e => Except.error e
    | Except.ok st2 => rescanPass st2 rest

/-- The initial linter state (`self.disabler = None`; no file registered). -/
def initLinter : LinterState :=
  { disabler := DisablersFinder.build none, output := [] }

/-- `run_checks`: main scan loop followed by the corrective re-scan pass. -/
def runAll (files : List RFile) : Except String LinterState :=
  match mainPass initLinter files with
  | Except.error e => Except.error e
  | Except.ok st => rescanPass st files

/-- A file whose main scan reaches the report filter with an enabled
finding (and so raises `AttributeError` there). -/
def fileRaisesMain (f : RFile) : Bool :=
  !(DisablersFinder.build f.text).file_disabled &&
    f.mainFindings.any (fun m => m.enabled)

/-- A file whose corrective re-scan reaches the report filter with an
enabled finding. -/
def fileRaisesRescan (f : RFile) : Bool :=
  !(DisablersFinder.build f.text).file_disabled &&
    (f.typeChanged && f.parseFindings.any (fun m => m.enabled))

/-! ### `Robocop.configure_checkers_or_reports` (`src/robocop/run.py`)

The rule objects and their hooks (`change_severity`, `get_configurable`,
`checker.configure`, `report.configure`) live in the checker modules, which
are not under `src/`.  Modelled from the spec: a rule carries a severity and
its declared configurable parameter names; `get_configurable` is a lookup in
the declared names; the hooks are total (they never raise). -/

structure CfgRule where
  severity : String
  configurables : List String
deriving DecidableEq

structure RcConfigState where
  rules : List (String × CfgRule)
  reportNames : List String
deriving DecidableEq

/-- The colon-separated fields of a `configure` directive
(`config.split(':')`; `config.count(':')` is their number minus one). -/
def cfgParts (config : String) : List String :=
  (splitOnChar ':' config.toList).map String.mk

/-- The exceptions `configure_checkers_or_reports` can raise:
`configGeneral` is the `ConfigGeneralError` it raises itself;
`attributeError` is the `AttributeError` raised at run.py line 208 by
`report.configure(param, value, *values)` — the registered reports are
instances of `RulesByIdReport` and `RulesBySeverityReport`
(src/robocop/reports/reports.py), and neither class defines a `configure`
method. -/
inductive CfgError where
  | configGeneral (msg : String) : CfgError
  | attributeError (msg : String) : CfgError
deriving DecidableEq

/-- One iteration of `configure_checkers_or_reports`.  Matching fewer than
three fields is exactly `config.count(':') < 2`.  On a known-rule target,
`change_severity`, `get_configurable` and `checker.configure` are checker
collaborators outside src/, modelled from the spec as a severity rewrite, a
declared-parameter lookup and a total hook.  On a registered-report target
the call `report.configure(...)` raises `AttributeError`: the report
classes in src/robocop/reports/reports.py define no such method. -/
def configureOne (st : RcConfigState) (config : String) : Except CfgError RcConfigState :=
  match cfgParts config with
  | ruleOrReport :: param :: value :: _ =>
    match alistFind ruleOrReport st.rules with
    | some r =>
      if param = "severity" then
        Except.ok { st with rules := alistSet ruleOrReport { r with severity := value } st.rules }
      else if param ∈ r.configurables then
        Except.ok st
      else Except.error (CfgError.configGeneral "Provided param does not exists")
    | none =>
      if ruleOrReport ∈ st.reportNames then
        Except.error (CfgError.attributeError "report object has no attribute configure")
      else Except.error (CfgError.configGeneral "Provided rule or report does not exists")
  | _ => Except.error (CfgError.configGeneral "Provided invalid config")

def isErr {ε α : Type} : Except ε α → Bool
  | Except.error _ => true
  | Except.ok _ => false

/-- Did `configureOne` raise a `ConfigGeneralError`? -/
def raisesConfigGeneral : Except CfgError RcConfigState → Bool
  | Except.error (CfgError.configGeneral _) => true
  | _ => false

/-- Did `configureOne` raise an `AttributeError`? -/
def raisesAttribute : Except CfgError RcConfigState → Bool
  | Except.error (CfgError.attributeError _) => true
  | _ => false

/-- The failure condition exactly as the specification words it: fewer than
two colons, or an unknown target, or (for a rule target) a parameter that is
neither `severity` nor declared configurable. -/
def configFails (st : RcConfigState) (config : String) : Bool :=
  match cfgParts config with
  | ruleOrReport :: param :: _ :: _ =>
    match alistFind ruleOrReport st.rules with
    | some r => param ≠ "severity" && param ∉ r.configurables
    | none => ruleOrReport ∉ st.reportNames
  | _ => true

/-- The condition under which `configure` raises `AttributeError` instead of
completing: a well-formed directive whose target is not a rule key but is a
registered report's name. -/
def configAttrRaises (st : RcConfigState) (config : String) : Bool :=
  match cfgParts config with
  | ruleOrReport :: _ :: _ :: _ =>
    match alistFind ruleOrReport st.rules with
    | some _ => false
    | none => ruleOrReport ∈ st.reportNames
  | _ => false

/-! ### `Robocop.register_checker` (`src/robocop/run.py`) -/

/-- A rule as the registry sees it (`rule_id`, mutable `enabled`). -/
structure RRule where
  rule_id : String
  enabled : Bool
deriving DecidableEq

/-- A checker: its identity (used by `DuplicatedRuleError`), its
`rules_map` (rule name → rule), its `disabled` flag. -/
structure RChecker where
  cname : String
  rules_map : List (String × RRule)
  disabled : Bool
deriving DecidableEq

/-- `DuplicatedRuleError(kind, key, checker, checker_prev)`. -/
structure DupError where
  kind : String
  key : String
  checker : String
  checker_prev : String
deriving DecidableEq

/-- `self.rules`: registry key (id or name) → (rule, owning checker). -/
abbrev Registry := List (String × (RRule × String))

/-- The rule loop of `register_checker`: check the name, check the id, then
insert under both keys. -/
def regGo (cn : String) : List (String × RRule) → Registry → Except DupError Registry
  | [], reg => Except.ok reg
  | (n, r) :: rest, reg =>
    match alistFind n reg with
    | some p => Except.error ⟨"name", n, cn, p.2⟩
    | none =>
      match alistFind r.rule_id reg with
      | some p => Except.error ⟨"id", r.rule_id, cn, p.2⟩
      | none => regGo cn rest (alistSet r.rule_id (r, cn) (alistSet n (r, cn) reg))

/-- The registry-facing state of the `Robocop` object. -/
structure RunState where
  rules : Registry
  checkers : List RChecker
deriving DecidableEq

/-- `register_checker`, with `any_rule_enabled` resolving each rule's
`enabled` flag through the configuration collaborator `cfg`. -/
def registerChecker (cfg : RRule → Bool) (st : RunState) (c : RChecker) :
    Except DupError RunState :=
  let rmap := c.rules_map.map (fun p => (p.1, { p.2 with enabled := cfg p.2 }))
  let c1 : RChecker :=
    { c with rules_map := rmap,
             disabled := if rmap.any (fun p => p.2.enabled) then c.disabled else true }
  match regGo c1.cname rmap st.rules with
  | Except.error e => Except.error e
  | Except.ok reg => Except.ok { rules := reg, checkers := st.checkers ++ [c1] }

/-- A line the parser ignores: either it has no `#`, or its comment part
does not match the disabler pattern. -/
def noDirective (line : String) : Prop :=
  line.toList.contains '#' = false ∨ searchDisabler (splitHash line).2.toList = none

instance (line : String) : Decidable (noDirective line) := by
  unfold noDirective
  infer_instance

/-- The two files of the C4 scenario: `fileX` has no directives, is
re-scanned (its type changed) and its re-scan emits one parse-validity
finding on line 1; `fileY` is the last discovered file and carries an
inline `disable=parsing-error` on its line 1. -/
def fileX : RFile :=
  ⟨some ["code"], true, [], [⟨1, "0401", "parsing-error", true⟩]⟩

def fileY : RFile :=
  ⟨some ["x # robocop: disable=parsing-error"], false, [], []⟩

/-! ## Lemmas about the association-list primitives -/

theorem alistFind_set {α : Type} (st : List (String × α)) (k k' : String) (v : α) :
    alistFind k (alistSet k' v st) = if k' = k then some v else alistFind k st := by
  induction st with
  | nil =>
    by_cases h : k' = k <;> simp [alistSet, alistFind, h]
  | cons p rest ih =>
    obtain ⟨k0, v0⟩ := p
    by_cases h0 : k0 = k'
    · subst h0
      by_cases h : k0 = k <;> simp [alistSet, alistFind, h, ih]
    · by_cases h : k0 = k
      · subst h
        have : ¬ k' = k0 := fun hh => h0 hh.symm
        simp [alistSet, alistFind, h0, this]
      · simp [alistSet, alistFind, h0, h, ih]

theorem keysOf_set_of_mem {α : Type} (st : List (String × α)) (k : String) (v : α)
    (h : (alistFind k st).isSome) : keysOf (alistSet k v st) = keysOf st := by
  induction st with
  | nil => simp [alistFind] at h
  | cons p rest ih =>
    obtain ⟨k0, v0⟩ := p
    by_cases h0 : k0 = k
    · simp [alistSet, keysOf, h0]
    · simp only [alistFind, h0, if_false] at h
      simp [alistSet, keysOf, h0] at ih ⊢
      exact ih h

theorem mem_keysOf_iff {α : Type} (st : List (String × α)) (k : String) :
    k ∈ keysOf st ↔ (alistFind k st).isSome := by
  induction st with
  | nil => simp [keysOf, alistFind]
  | cons p rest ih =>
    obtain ⟨k0, v0⟩ := p
    by_cases h0 : k0 = k
    · subst h0
      simp [keysOf, alistFind]
    · have h0' : ¬ k = k0 := fun h => h0 h.symm
      simpa [keysOf, alistFind, h0, h0'] using ih

/-! ## Frame lemmas for the suppression queries (claim C10) -/

theorem getRule_snd_of_contains (st : DState) (r : String)
    (h : containsKey st r = true) : (getRule st r).2 = st := by
  unfold containsKey at h
  unfold getRule
  cases hf : alistFind r st with
  | none => rw [hf] at h; simp at h
  | some d => simp

theorem is_line_disabledM_snd (st : DState) (line : Int) (r : String)
    (h : containsKey st r = true) : (is_line_disabledM st line r).2 = st := by
  unfold is_line_disabledM
  exact getRule_snd_of_contains st r h

theorem guarded_line_query_snd (st : DState) (k : String) (l : Int) :
    (if containsKey st k then is_line_disabledM st l k else (false, st)).2 = st := by
  by_cases hc : containsKey st k
  · simp [hc, is_line_disabledM_snd st l k hc]
  · simp [hc]

theorem is_msg_disabledM_snd (f : DisablersFinder) (m : RuleMsg) :
    (is_msg_disabledM f m).2 = f := by
  obtain ⟨fd, ad, rl⟩ := f
  cases ad with
  | false => rfl
  | true =>
    unfold is_msg_disabledM
    simp only [guarded_line_query_snd]
    repeat' split
    all_goals simp_all

/-- **C10.** After construction, suppression queries never mutate the
`DisablerState`: running any sequence of `is_msg_disabled` queries (each of
which threads the dict through its guarded `defaultdict` accesses) returns
the `DisablersFinder` — key set, disabled-lines sets, block lists and
open-block markers included — exactly as it started. -/
theorem suppression_queries_preserve_state (f : DisablersFinder) (msgs : List RuleMsg) :
    msgs.foldl (fun g m => (is_msg_disabledM g m).2) f = f := by
  induction msgs generalizing f with
  | nil => rfl
  | cons m rest ih =>
    rw [List.foldl_cons]
    rw [is_msg_disabledM_snd f m]
    exact ih f

/-- **C9.** If the raw file text cannot be read (`source = none`, the
`OSError` path), construction fails open: the finder is not whole-file
disabled, records no disablers, and every suppression query answers
`false`, so no finding of that file is ever suppressed. -/
theorem disabler_io_failure_fails_open :
    (DisablersFinder.build none).file_disabled = false ∧
    (DisablersFinder.build none).rules = [] ∧
    ∀ m : RuleMsg, is_msg_disabled (DisablersFinder.build none) m = false := by
  refine ⟨rfl, rfl, fun m => ?_⟩
  rfl

/-- **C3.** `code_bug` evidence: for the file whose single line is the
standalone all-rules block directive `# robocop: disable` (and no `enable`
anywhere), the `"all"` key ends with exactly one closed block spanning the
first line to the last line, yet `_is_file_disabled` — which compares the
block to `(0, last_line)` while blocks start at 1-based directive lines —
classifies the file as **not** whole-file-disabled. -/
theorem file_disabled_false_on_fully_disabled_file :
    (DisablersFinder.build (some ["# robocop: disable"])).file_disabled = false ∧
    alistFind "all" (DisablersFinder.build (some ["# robocop: disable"])).rules =
      some ⟨-1, [], [(1, 1)]⟩ := by
  exact ⟨rfl, rfl⟩

/-- **C5.** `code_bug` evidence: after counting two findings of rule `"b"`
and one of rule `"aaa"`, the rendered report pads to the length of the
*lexicographically greatest* identifier (`"b"`, width 1; the code computes
`longest_name` with `max(..., key=itemgetter(0))`, i.e. by string value,
not by length), so the identifier fields have widths 1 and 3 and the count
columns do not align — the claimed common width of the longest identifier
(3) is not used. -/
theorem rules_by_id_report_misaligned_padding :
    getReport (addMessage (addMessage (addMessage [] "b") "b") "aaa") =
      "\nIssues by ids:\nb : 2\naaa : 1" := by
  rfl

/-! ## Claim C2: end-of-file force-closing of open blocks -/

theorem endBlockCore_find_other (st : DState) (k k' : String) (l : Int) (h : k' ≠ k) :
    alistFind k' (endBlockCore st k l) = alistFind k' st := by
  unfold endBlockCore
  cases hf : alistFind k st with
  | none => rfl
  | some d =>
    dsimp only
    by_cases hlb : d.lastblock ≠ -1
    · rw [if_pos hlb, alistFind_set]
      exact if_neg (fun hh => h hh.symm)
    · rw [if_neg hlb]

theorem endBlockCore_clears_self (st : DState) (k : String) (l : Int) (d : DisablersInFile)
    (h : alistFind k st = some d) :
    ∃ d', alistFind k (endBlockCore st k l) = some d' ∧ d'.lastblock = -1 := by
  unfold endBlockCore
  rw [h]
  dsimp only
  by_cases hlb : d.lastblock ≠ -1
  · rw [if_pos hlb]
    exact ⟨{ d with lastblock := -1, blocks := d.blocks ++ [(d.lastblock, l)] },
      by rw [alistFind_set, if_pos rfl], rfl⟩
  · push_neg at hlb
    rw [if_neg (by simp [hlb])]
    exact ⟨d, h, hlb⟩

/-- After folding the `_end_all_blocks` loop body over key list `ks`, every
key of the dict that was either scheduled in `ks` (other than `"all"`) or
already had a cleared marker ends with a cleared marker. -/
theorem cascade_fold_clears (l : Int) (ks : List String) (st : DState)
    (hcov : ∀ k : String, (alistFind k st).isSome →
      (k ∈ ks ∧ k ≠ "all") ∨ (∃ d, alistFind k st = some d ∧ d.lastblock = -1)) :
    ∀ k d,
      alistFind k (ks.foldl (fun s k' => if k' = "all" then s else endBlockCore s k' l) st) = some d →
      d.lastblock = -1 := by
  induction ks generalizing st with
  | nil =>
    intro k d hfind
    simp only [List.foldl_nil] at hfind
    rcases hcov k (by rw [hfind]; rfl) with ⟨hmem, _⟩ | ⟨d0, hf0, hlb⟩
    · exact absurd hmem (List.not_mem_nil k)
    · rw [hfind] at hf0
      cases hf0
      exact hlb
  | cons k0 ks ih =>
    intro k d hfind
    rw [List.foldl_cons] at hfind
    by_cases h0 : k0 = "all"
    · rw [if_pos h0] at hfind
      refine ih st ?_ k d hfind
      intro q hq
      rcases hcov q hq with ⟨hmem, hne⟩ | hr
      · rcases List.mem_cons.mp hmem with he | hm
        · exact absurd (he.trans h0) hne
        · exact Or.inl ⟨hm, hne⟩
      · exact Or.inr hr
    · rw [if_neg h0] at hfind
      refine ih (endBlockCore st k0 l) ?_ k d hfind
      intro q hq
      by_cases hqk : q = k0
      · subst hqk
        cases hf : alistFind q st with
        | none =>
          rw [show endBlockCore st q l = st by unfold endBlockCore; rw [hf], hf] at hq
          simp at hq
        | some d0 =>
          exact Or.inr (endBlockCore_clears_self st q l d0 hf)
      · rw [endBlockCore_find_other st k0 q l hqk] at hq
        rcases hcov q hq with ⟨hmem, hne⟩ | ⟨d0, hf0, hlb⟩
        · rcases List.mem_cons.mp hmem with he | hm
          · exact absurd he hqk
          · exact Or.inl ⟨hm, hne⟩
        · exact Or.inr ⟨d0, by rw [endBlockCore_find_other st k0 q l hqk, hf0], hlb⟩

/-- **C2 (counterexample).** For the one-line file whose only directive is the
standalone block `# robocop: disable=ruleA` (never enabled again), the
constructed state leaves `ruleA` with a *dangling* open block: the open-block
marker still holds line 1 and the block list is empty — the end-of-file
`_end_block('all', …)` returned early because no `"all"` key exists, so the
claimed force-close at the last line never happened. -/
theorem dangling_open_block_cex :
    ∃ d, alistFind "ruleA" (DisablersFinder.build (some ["# robocop: disable=ruleA"])).rules =
        some d ∧ d.lastblock ≠ -1 ∧ d.blocks = [] := by
  exact ⟨⟨1, [], []⟩, rfl, by decide, rfl⟩

/-- **C2 (amended).** The end-of-file force-close only happens when the
`"all"` key is present in the rules map when the line loop ends (i.e. some
`disable` directive targeted the all-key).  In that case the cascade does
clear every rule key's open-block marker: after construction every entry of
the rules map has `lastblock = -1`.  (Without an `"all"` key, a specific
rule's unclosed block simply dangles, as the counterexample shows.) -/
theorem eof_close_clears_markers_when_all_key_present
    (lines : List String) (k : String) (d : DisablersInFile)
    (hall : (alistFind "all" (parseLinesState lines)).isSome)
    (hfind : alistFind k (DisablersFinder.build (some lines)).rules = some d) :
    d.lastblock = -1 := by
  obtain ⟨d0, hd0⟩ := Option.isSome_iff_exists.mp hall
  have hrules : (DisablersFinder.build (some lines)).rules =
      endBlock (parseLinesState lines) "all" (lastLineno lines) := rfl
  rw [hrules] at hfind
  unfold endBlock at hfind
  rw [hd0, if_pos rfl] at hfind
  unfold endAllBlocks at hfind
  refine cascade_fold_clears (lastLineno lines) _ _ ?_ k d hfind
  intro q hq
  by_cases hqa : q = "all"
  · subst hqa
    exact Or.inr (endBlockCore_clears_self (parseLinesState lines) "all" (lastLineno lines) d0 hd0)
  · exact Or.inl ⟨(mem_keysOf_iff _ q).mpr hq, hqa⟩

/-- Witness for C2 (amended): a file whose first line is `# robocop: disable`
(opening the `"all"` block) and whose second opens a `ruleA` block with no
explicit `enable` — at end of file the cascade closes `ruleA`'s block as
`(2, 2)` and clears its marker. -/
theorem eof_close_clears_markers_witness :
    (⟨-1, [], [(2, 2)]⟩ : DisablersInFile).lastblock = -1 := by
  exact eof_close_clears_markers_when_all_key_present
    ["# robocop: disable", "# robocop: disable=ruleA"] "ruleA" ⟨-1, [], [(2, 2)]⟩
    (by decide) (by decide)

/-! ## Parsing lemmas: lines without directives are no-ops -/

theorem parseLine_noop (st : DState) (line : String) (n : Int)
    (h : searchDisabler (splitHash line).2.toList = none) : parseLine st line n = st := by
  simp only [parseLine, h]

theorem parseFrom_noop (ls : List String) (st : DState) (n : Int)
    (h : ∀ l ∈ ls, noDirective l) : parseFrom st n ls = st := by
  induction ls generalizing st n with
  | nil => rfl
  | cons l rest ih =>
    have hstep : (if l.toList.contains '#' then parseLine st l n else st) = st := by
      rcases h l (List.mem_cons_self l rest) with hc | hs
      · rw [hc]
        simp
      · by_cases hc : l.toList.contains '#'
        · rw [if_pos hc, parseLine_noop st l n hs]
        · rw [if_neg hc]
    show parseFrom (if l.toList.contains '#' then parseLine st l n else st) (n + 1) rest = st
    rw [hstep]
    exact ih st (n + 1) (fun x hx => h x (List.mem_cons_of_mem l hx))

theorem parseFrom_append (xs ys : List String) (st : DState) (n : Int) :
    parseFrom st n (xs ++ ys) = parseFrom (parseFrom st n xs) (n + (xs.length : Int)) ys := by
  induction xs generalizing st n with
  | nil => simp [parseFrom]
  | cons x rest ih =>
    show parseFrom (if x.toList.contains '#' then parseLine st x n else st) (n + 1) (rest ++ ys) = _
    rw [ih]
    have : n + 1 + (rest.length : Int) = n + ((x :: rest).length : Int) := by
      simp [List.length_cons]
      ring
    rw [this]
    rfl

theorem takeWhile_append_stop (p : Char → Bool) (xs ys : List Char) (y : Char)
    (hxs : ∀ x ∈ xs, p x = true) (hy : p y = false) :
    ((xs ++ y :: ys).takeWhile p = xs) ∧ ((xs ++ y :: ys).dropWhile p = y :: ys) := by
  induction xs with
  | nil => simp [List.takeWhile, List.dropWhile, hy]
  | cons a rest ih =>
    have ha := hxs a (by simp)
    have ihh := ih (fun x hx => hxs x (by simp [hx]))
    simp [List.takeWhile_cons, List.dropWhile_cons, ha, ihh.1, ihh.2]

/-- Splitting a line `statement#comment` whose statement has no `#`. -/
theorem splitHash_mid (s c : String) (h : ∀ x ∈ s.toList, x ≠ '#') :
    splitHash (s ++ "#" ++ c) = (s, c) := by
  have hx : ∀ x ∈ s.toList, (x != '#') = true := fun x hmem => by
    simpa using h x hmem
  have hlist : (s ++ "#" ++ c).toList = s.toList ++ '#' :: c.toList := by
    show (s.toList ++ ['#']) ++ c.toList = s.toList ++ '#' :: c.toList
    simp
  unfold splitHash
  rw [hlist]
  obtain ⟨h1, h2⟩ :=
    takeWhile_append_stop (fun x => x != '#') s.toList c.toList '#' hx (by simp)
  rw [h1, h2]
  rfl

theorem contains_hash_mid (s c : String) :
    (s ++ "#" ++ c).toList.contains '#' = true := by
  have hlist : (s ++ "#" ++ c).toList = s.toList ++ '#' :: c.toList := by
    show (s.toList ++ ['#']) ++ c.toList = s.toList ++ '#' :: c.toList
    simp
  rw [hlist]
  exact List.elem_iff.mpr (by simp)

/-- Rule lists without a comma are not split. -/
theorem splitOnChar_no_sep (sep : Char) (l : List Char) (h : ∀ x ∈ l, x ≠ sep) :
    splitOnChar sep l = [l] := by
  induction l with
  | nil => rfl
  | cons a rest ih =>
    have ha : a ≠ sep := h a (by simp)
    have ihh : splitOnChar sep rest = [rest] := ih (fun x hx => h x (by simp [hx]))
    unfold splitOnChar
    rw [ihh, if_neg ha]


/-! ## Suppression over a rules map with one non-"all" entry -/

theorem is_msg_single_entry (fd : Bool) (r : String) (d : DisablersInFile) (m : RuleMsg)
    (hr : r ≠ "all") :
    is_msg_disabled ⟨fd, true, [(r, d)]⟩ m =
      ((decide (m.msg_id = r) || decide (m.name = r)) && qline d m.line) := by
  have hline : ∀ x : String, r = x →
      is_line_disabledM [(r, d)] m.line x = (qline d m.line, [(r, d)]) := by
    intro x hx
    simp [is_line_disabledM, getRule, alistFind, hx]
  have c_all : containsKey [(r, d)] "all" = false := by
    simp [containsKey, alistFind, hr]
  by_cases hid : r = m.msg_id <;> by_cases hname : r = m.name
  · have c_id : containsKey [(r, d)] m.msg_id = true := by
      simp [containsKey, alistFind, hid]
    have c_nm : containsKey [(r, d)] m.name = true := by
      simp [containsKey, alistFind, hname]
    have hl2 := hline m.msg_id hid
    have hl3 := hline m.name hname
    have d1 : decide (m.msg_id = r) = true := decide_eq_true hid.symm
    cases hq : qline d m.line <;>
      simp [is_msg_disabled, is_msg_disabledM, c_all, c_id, c_nm, hl2, hl3, d1, hq]
  · have c_id : containsKey [(r, d)] m.msg_id = true := by
      simp [containsKey, alistFind, hid]
    have c_nm : containsKey [(r, d)] m.name = false := by
      simp [containsKey, alistFind, hname]
    have hl2 := hline m.msg_id hid
    have d1 : decide (m.msg_id = r) = true := decide_eq_true hid.symm
    have d2 : decide (m.name = r) = false := decide_eq_false (fun h => hname h.symm)
    cases hq : qline d m.line <;>
      simp [is_msg_disabled, is_msg_disabledM, c_all, c_id, c_nm, hl2, d1, d2, hq]
  · have c_id : containsKey [(r, d)] m.msg_id = false := by
      simp [containsKey, alistFind, hid]
    have c_nm : containsKey [(r, d)] m.name = true := by
      simp [containsKey, alistFind, hname]
    have hl3 := hline m.name hname
    have d1 : decide (m.msg_id = r) = false := decide_eq_false (fun h => hid h.symm)
    have d2 : decide (m.name = r) = true := decide_eq_true hname.symm
    cases hq : qline d m.line <;>
      simp [is_msg_disabled, is_msg_disabledM, c_all, c_id, c_nm, hl3, d1, d2, hq]
  · have c_id : containsKey [(r, d)] m.msg_id = false := by
      simp [containsKey, alistFind, hid]
    have c_nm : containsKey [(r, d)] m.name = false := by
      simp [containsKey, alistFind, hname]
    have d1 : decide (m.msg_id = r) = false := decide_eq_false (fun h => hid h.symm)
    have d2 : decide (m.name = r) = false := decide_eq_false (fun h => hname h.symm)
    simp [is_msg_disabled, is_msg_disabledM, c_all, c_id, c_nm, d1, d2]


theorem beq_int_decide (a b : Int) : (a == b) = decide (a = b) := by
  by_cases h : a = b <;> simp [h]

/-! ## Claim C8: a single inline disabler -/

theorem addInline_nil (r : String) (n : Int) : addInline [] r n = [(r, ⟨-1, [n], []⟩)] := by
  simp [addInline, getRule, alistFind, alistSet, defaultDisabler]

theorem startBlock_nil (r : String) (n : Int) : startBlock [] r n = [(r, ⟨n, [], []⟩)] := by
  simp [startBlock, getRule, alistFind, alistSet, defaultDisabler]

/-- Evaluating `_parse_line` on a line `statement#comment` once the regex
match of the comment is known. -/
theorem parseLine_eval (st : DState) (s c : String) (n : Int) (w rulesStr : String)
    (hs : ∀ x ∈ s.toList, x ≠ '#')
    (hsearch : searchDisabler c.toList = some (w, rulesStr)) :
    parseLine st (s ++ "#" ++ c) n =
      (if w = "disable" then
        (if rulesStr = "" then ["all"]
          else (splitOnChar ',' rulesStr.toList).map String.mk).foldl
          (fun s2 x => if (s = "") then startBlock s2 x n else addInline s2 x n) st
      else if w = "enable" ∧ (s = "") then
        (if rulesStr = "" then ["all"]
          else (splitOnChar ',' rulesStr.toList).map String.mk).foldl
          (fun s2 x => endBlock s2 x n) st
      else st) := by
  unfold parseLine
  rw [splitHash_mid s c hs]
  dsimp only
  rw [hsearch]

/-- Building the finder for a file whose only directive-bearing line is
`statement#comment` at line `|pre| + 1`, the comment matching
`disable=<r>`: the rules map gets the single entry `r` with exactly that
line in its disabled-lines set. -/
theorem inline_build (pre post : List String) (s c r : String)
    (hpre : ∀ l ∈ pre, noDirective l) (hpost : ∀ l ∈ post, noDirective l)
    (hs_hash : ∀ x ∈ s.toList, x ≠ '#') (hs_ne : ¬ (s = ""))
    (hsearch : searchDisabler c.toList = some ("disable", r))
    (hr_ne : ¬ (r = "")) (hr_comma : ∀ x ∈ r.toList, x ≠ ',') (hr_all : r ≠ "all") :
    DisablersFinder.build (some (pre ++ (s ++ "#" ++ c) :: post)) =
      ⟨false, true, [(r, ⟨-1, [(pre.length : Int) + 1], []⟩)]⟩ := by
  have hmk : String.mk r.toList = r := rfl
  have hL : (1 : Int) + (pre.length : Int) = (pre.length : Int) + 1 := by ring
  have hparseline : ∀ n : Int, parseLine [] (s ++ "#" ++ c) n = [(r, ⟨-1, [n], []⟩)] := by
    intro n
    rw [parseLine_eval [] s c n "disable" r hs_hash hsearch]
    rw [if_pos rfl, if_neg hr_ne, splitOnChar_no_sep ',' r.toList hr_comma]
    simp only [List.map_cons, List.map_nil, hmk, List.foldl_cons, List.foldl_nil]
    rw [if_neg hs_ne, addInline_nil]
  have hst0 : parseLinesState (pre ++ (s ++ "#" ++ c) :: post) =
      [(r, ⟨-1, [(pre.length : Int) + 1], []⟩)] := by
    unfold parseLinesState
    rw [parseFrom_append pre ((s ++ "#" ++ c) :: post) [] 1]
    rw [parseFrom_noop pre [] 1 hpre]
    show parseFrom
        (if (s ++ "#" ++ c).toList.contains '#'
          then parseLine [] (s ++ "#" ++ c) (1 + (pre.length : Int)) else [])
        (1 + (pre.length : Int) + 1) post = _
    rw [if_pos (contains_hash_mid s c), hparseline, hL,
      parseFrom_noop post _ _ hpost]
  have hfind_all : alistFind "all"
      ([(r, ⟨-1, [(pre.length : Int) + 1], []⟩)] : DState) = none := by
    simp [alistFind, hr_all]
  have hend : endBlock [(r, ⟨-1, [(pre.length : Int) + 1], []⟩)] "all"
      (lastLineno (pre ++ (s ++ "#" ++ c) :: post)) =
      [(r, ⟨-1, [(pre.length : Int) + 1], []⟩)] := by
    unfold endBlock
    rw [hfind_all]
  show DisablersFinder.mk _ _ _ = _
  rw [hst0, hend]
  simp [isFileDisabled, hfind_all]

/-- **C8.** For every file whose only comment directive is an inline
`disable=<r>` sitting on line `L = |pre| + 1` (every other line carries no
directive, the directive line has a non-empty statement before its first
`#`), the disabler suppresses exactly the findings that are at line `L`
*and* carry `r` as their rule id or rule name: rule `r` at `L` is
suppressed, rule `r` at any other line is not, and any other rule at `L`
is not. -/
theorem inline_disabler_exact_suppression
    (pre post : List String) (s c r : String) (m : RuleMsg)
    (hpre : ∀ l ∈ pre, noDirective l) (hpost : ∀ l ∈ post, noDirective l)
    (hs_hash : ∀ x ∈ s.toList, x ≠ '#') (hs_ne : ¬ (s = ""))
    (hsearch : searchDisabler c.toList = some ("disable", r))
    (hr_ne : ¬ (r = "")) (hr_comma : ∀ x ∈ r.toList, x ≠ ',') (hr_all : r ≠ "all") :
    is_msg_disabled (DisablersFinder.build (some (pre ++ (s ++ "#" ++ c) :: post))) m =
      ((decide (m.msg_id = r) || decide (m.name = r)) &&
        decide (m.line = (pre.length : Int) + 1)) := by
  rw [inline_build pre post s c r hpre hpost hs_hash hs_ne hsearch hr_ne hr_comma hr_all]
  rw [is_msg_single_entry false r ⟨-1, [(pre.length : Int) + 1], []⟩ m hr_all]
  have hq : qline ⟨-1, [(pre.length : Int) + 1], []⟩ m.line =
      decide (m.line = (pre.length : Int) + 1) := by
    simp [qline, beq_int_decide]
  rw [hq]

/-- Witness for C8: in the file `["foo", "x # robocop: disable=ruleA", "bar"]`
a `ruleA` finding at line 2 is suppressed. -/
theorem inline_disabler_witness :
    is_msg_disabled
      (DisablersFinder.build (some (["foo"] ++ ("x " ++ "#" ++ " robocop: disable=ruleA") :: ["bar"])))
      ⟨2, "A101", "ruleA", true⟩ = true := by
  rw [inline_disabler_exact_suppression ["foo"] ["bar"] "x " " robocop: disable=ruleA" "ruleA"
    ⟨2, "A101", "ruleA", true⟩ (by decide) (by decide) (by decide) (by decide) (by decide)
    (by decide) (by decide) (by decide)]
  decide


/-! ## Claim C1: `disable=rule` followed by `enable=all` -/

/-- Building the finder for a file with a standalone block `disable=<r>`
line and a later standalone `enable=all` line (no other directives): the
`enable=all` is a no-op because `"all"` is not a key of the rules map, so
`r` ends with its block still open (marker set, no closed block). -/
theorem block_enable_all_build (pre mid post : List String) (c1 c2 r : String)
    (hpre : ∀ l ∈ pre, noDirective l) (hmid : ∀ l ∈ mid, noDirective l)
    (hpost : ∀ l ∈ post, noDirective l)
    (hd : searchDisabler c1.toList = some ("disable", r))
    (he : searchDisabler c2.toList = some ("enable", "all"))
    (hr_ne : ¬ (r = "")) (hr_comma : ∀ x ∈ r.toList, x ≠ ',') (hr_all : r ≠ "all") :
    DisablersFinder.build (some (pre ++ ("#" ++ c1) :: (mid ++ ("#" ++ c2) :: post))) =
      ⟨false, true, [(r, ⟨(pre.length : Int) + 1, [], []⟩)]⟩ := by
  have hmk : String.mk r.toList = r := rfl
  have hmkall : String.mk "all".toList = "all" := rfl
  have e1 : ("#" ++ c1 : String) = "" ++ "#" ++ c1 := rfl
  have e2 : ("#" ++ c2 : String) = "" ++ "#" ++ c2 := rfl
  have hL : (1 : Int) + (pre.length : Int) = (pre.length : Int) + 1 := by ring
  have hpl1 : ∀ n : Int, parseLine [] ("#" ++ c1) n = [(r, ⟨n, [], []⟩)] := by
    intro n
    rw [e1, parseLine_eval [] "" c1 n "disable" r (by simp) hd]
    rw [if_pos rfl, if_neg hr_ne, splitOnChar_no_sep ',' r.toList hr_comma]
    simp only [List.map_cons, List.map_nil, hmk, List.foldl_cons, List.foldl_nil]
    rw [if_pos trivial, startBlock_nil]
  have hpl2 : ∀ (st : DState) (n : Int), alistFind "all" st = none →
      parseLine st ("#" ++ c2) n = st := by
    intro st n hfind
    rw [e2, parseLine_eval st "" c2 n "enable" "all" (by simp) he]
    rw [if_neg (by decide), if_pos ⟨rfl, rfl⟩, if_neg (by decide)]
    rw [splitOnChar_no_sep ',' "all".toList (by decide)]
    simp only [List.map_cons, List.map_nil, hmkall, List.foldl_cons, List.foldl_nil]
    unfold endBlock
    rw [hfind]
  have hc1 : (("#" ++ c1 : String)).toList.contains '#' = true := contains_hash_mid "" c1
  have hc2 : (("#" ++ c2 : String)).toList.contains '#' = true := contains_hash_mid "" c2
  have hfind_all : alistFind "all" ([(r, ⟨(pre.length : Int) + 1, [], []⟩)] : DState) = none := by
    simp [alistFind, hr_all]
  have hst0 : parseLinesState (pre ++ ("#" ++ c1) :: (mid ++ ("#" ++ c2) :: post)) =
      [(r, ⟨(pre.length : Int) + 1, [], []⟩)] := by
    unfold parseLinesState
    rw [parseFrom_append pre (("#" ++ c1) :: (mid ++ ("#" ++ c2) :: post)) [] 1]
    rw [parseFrom_noop pre [] 1 hpre]
    show parseFrom
        (if (("#" ++ c1 : String)).toList.contains '#'
          then parseLine [] ("#" ++ c1) (1 + (pre.length : Int)) else [])
        (1 + (pre.length : Int) + 1) (mid ++ ("#" ++ c2) :: post) = _
    rw [if_pos hc1, hpl1, hL]
    rw [parseFrom_append mid (("#" ++ c2) :: post) _ _]
    rw [parseFrom_noop mid _ _ hmid]
    show parseFrom
        (if (("#" ++ c2 : String)).toList.contains '#'
          then parseLine [(r, ⟨(pre.length : Int) + 1, [], []⟩)] ("#" ++ c2)
            ((pre.length : Int) + 1 + 1 + (mid.length : Int)) else _)
        ((pre.length : Int) + 1 + 1 + (mid.length : Int) + 1) post = _
    rw [if_pos hc2, hpl2 _ _ hfind_all, parseFrom_noop post _ _ hpost]
  have hend : endBlock [(r, ⟨(pre.length : Int) + 1, [], []⟩)] "all"
      (lastLineno (pre ++ ("#" ++ c1) :: (mid ++ ("#" ++ c2) :: post))) =
      [(r, ⟨(pre.length : Int) + 1, [], []⟩)] := by
    unfold endBlock
    rw [hfind_all]
  show DisablersFinder.mk _ _ _ = _
  rw [hst0, hend]
  simp [isFileDisabled, hfind_all]

/-- **C1 (counterexample).** `disable=ruleA` on line 1, `enable=all` on
line 10, no other directives: the claim says a `ruleA` finding on line 5
(inside the block) is suppressed, but the code does not suppress it —
`_end_block('all', 10)` returns early because `"all"` was never a key of
the rules map, so `ruleA`'s block is never closed and open markers alone
never suppress. -/
theorem enable_all_cascade_cex :
    is_msg_disabled
      (DisablersFinder.build (some ["# robocop: disable=ruleA", "a", "a", "a", "a", "a", "a",
        "a", "a", "# robocop: enable=all"]))
      ⟨5, "A101", "ruleA", true⟩ = false := by
  decide

/-- **C1 (amended).** For every file text containing a standalone block
`disable=<r>` directive and a later standalone `enable=all` directive, with
no other directives at all, the disabler suppresses **no** finding of any
rule at any line: the `enable=all` returns without effect because the
all-key is absent from the rules map, leaving `r`'s block open, and open
blocks (unlike closed ones) never suppress. -/
theorem disable_rule_then_enable_all_suppresses_nothing
    (pre mid post : List String) (c1 c2 r : String) (m : RuleMsg)
    (hpre : ∀ l ∈ pre, noDirective l) (hmid : ∀ l ∈ mid, noDirective l)
    (hpost : ∀ l ∈ post, noDirective l)
    (hd : searchDisabler c1.toList = some ("disable", r))
    (he : searchDisabler c2.toList = some ("enable", "all"))
    (hr_ne : ¬ (r = "")) (hr_comma : ∀ x ∈ r.toList, x ≠ ',') (hr_all : r ≠ "all") :
    is_msg_disabled
      (DisablersFinder.build (some (pre ++ ("#" ++ c1) :: (mid ++ ("#" ++ c2) :: post)))) m =
      false := by
  rw [block_enable_all_build pre mid post c1 c2 r hpre hmid hpost hd he hr_ne hr_comma hr_all]
  rw [is_msg_single_entry false r ⟨(pre.length : Int) + 1, [], []⟩ m hr_all]
  simp [qline]

/-- Witness for C1 (amended): with `# robocop: disable=ruleA` on line 1 and
`# robocop: enable=all` on line 2, a `ruleA` finding on line 1 is *not*
suppressed. -/
theorem disable_rule_then_enable_all_witness :
    is_msg_disabled
      (DisablersFinder.build (some ([] ++ ("#" ++ " robocop: disable=ruleA") ::
        ([] ++ ("#" ++ " robocop: enable=all") :: []))))
      ⟨1, "A101", "ruleA", true⟩ = false := by
  rw [disable_rule_then_enable_all_suppresses_nothing [] [] []
    " robocop: disable=ruleA" " robocop: enable=all" "ruleA" ⟨1, "A101", "ruleA", true⟩
    (by decide) (by decide) (by decide) (by decide) (by decide) (by decide) (by decide)
    (by decide)]


/-! ## Claim C4: what happens to findings reaching the report filter -/

theorem isErr_runMsgs (msgs : List RuleMsg) :
    ∀ st : LinterState, isErr (runMsgs st msgs) = msgs.any (fun m => m.enabled) := by
  induction msgs with
  | nil =>
    intro st
    rfl
  | cons m rest ih =>
    intro st
    by_cases he : m.enabled = false
    · have hr : reportMsg st m = Except.ok st := by
        unfold reportMsg
        rw [if_pos he]
      have hstep : runMsgs st (m :: rest) = runMsgs st rest := by
        rw [runMsgs, hr]
      rw [hstep, ih st]
      simp [List.any_cons, he]
    · have he2 : m.enabled = true := by
        revert he
        cases m.enabled <;> simp
      have hr : reportMsg st m = Except.error attrErrMsg := by
        unfold reportMsg
        rw [if_neg he]
      have hstep : runMsgs st (m :: rest) = Except.error attrErrMsg := by
        rw [runMsgs, hr]
      rw [hstep]
      simp [isErr, List.any_cons, he2]

theorem isErr_scanFile (st : LinterState) (f : RFile) :
    isErr (scanFile st f) = fileRaisesMain f := by
  unfold scanFile fileRaisesMain
  dsimp only
  by_cases h : (DisablersFinder.build f.text).file_disabled = true
  · rw [if_pos h]
    simp [isErr, h]
  · rw [if_neg h, isErr_runMsgs]
    simp at h
    rw [h]
    simp

theorem isErr_mainPass (files : List RFile) :
    ∀ st : LinterState, isErr (mainPass st files) = files.any fileRaisesMain := by
  induction files with
  | nil =>
    intro st
    rfl
  | cons f rest ih =>
    intro st
    cases hs : scanFile st f with
    | error e =>
      have hstep : mainPass st (f :: rest) = Except.error e := by
        rw [mainPass, hs]
      have h2 : fileRaisesMain f = true := by
        rw [← isErr_scanFile st f, hs]
        rfl
      rw [hstep]
      simp [isErr, List.any_cons, h2]
    | ok st2 =>
      have hstep : mainPass st (f :: rest) = mainPass st2 rest := by
        rw [mainPass, hs]
      have h2 : fileRaisesMain f = false := by
        rw [← isErr_scanFile st f, hs]
        rfl
      rw [hstep, ih st2]
      simp [List.any_cons, h2]

theorem isErr_rescanStep (st : LinterState) (f : RFile) :
    isErr (rescanStep st f) = fileRaisesRescan f := by
  unfold rescanStep fileRaisesRescan
  by_cases h : (DisablersFinder.build f.text).file_disabled = true
  · rw [if_pos h]
    simp [isErr, h]
  · rw [if_neg h]
    simp at h
    rw [h]
    by_cases ht : f.typeChanged = true
    · rw [if_pos ht, isErr_runMsgs]
      simp [ht]
    · rw [if_neg ht]
      simp at ht
      simp [isErr, ht]

theorem isErr_rescanPass (files : List RFile) :
    ∀ st : LinterState, isErr (rescanPass st files) = files.any fileRaisesRescan := by
  induction files with
  | nil =>
    intro st
    rfl
  | cons f rest ih =>
    intro st
    cases hs : rescanStep st f with
    | error e =>
      have hstep : rescanPass st (f :: rest) = Except.error e := by
        rw [rescanPass, hs]
      have h2 : fileRaisesRescan f = true := by
        rw [← isErr_rescanStep st f, hs]
        rfl
      rw [hstep]
      simp [isErr, List.any_cons, h2]
    | ok st2 =>
      have hstep : rescanPass st (f :: rest) = rescanPass st2 rest := by
        rw [rescanPass, hs]
      have h2 : fileRaisesRescan f = false := by
        rw [← isErr_rescanStep st f, hs]
        rfl
      rw [hstep, ih st2]
      simp [List.any_cons, h2]

/-- **C4 (counterexample).** The parse-validity finding of re-scanned
`fileX` is never subjected to disabler suppression at all: the run aborts
with `AttributeError` when that finding reaches `Robocop.report`, because
the filter looks up `is_rule_disabled` on the `DisablersFinder`, which
defines no such attribute.  `fileX`'s own directives do not disable the
finding (it has none), yet the finding is not reported — the claim
"suppressed iff that re-scanned file's own in-source directives disable
it" is false at this input. -/
theorem report_filter_attribute_error_cex :
    runAll [fileX, fileY] = Except.error attrErrMsg ∧
    is_msg_disabled (DisablersFinder.build fileX.text) ⟨1, "0401", "parsing-error", true⟩ = false ∧
    fileX.parseFindings = [⟨1, "0401", "parsing-error", true⟩] := by
  refine ⟨rfl, by decide, rfl⟩

/-- **C4 (amended).** No finding is ever subjected to disabler
suppression: every enabled finding reaching `Robocop.report` raises
`AttributeError` (run.py line 110 looks up `is_rule_disabled`, which
`DisablersFinder` does not define) and the run aborts there.  Precisely, a
run raises iff some non-whole-file-disabled file emits an enabled finding
in the main scan, or some such type-changed file emits an enabled finding
in the corrective re-scan; findings disabled from the cli are skipped
before the lookup and raise nothing. -/
theorem report_filter_always_raises (files : List RFile) :
    isErr (runAll files) = (files.any fileRaisesMain || files.any fileRaisesRescan) := by
  unfold runAll
  cases hm : mainPass initLinter files with
  | error e =>
    have h2 : files.any fileRaisesMain = true := by
      rw [← isErr_mainPass files initLinter, hm]
      rfl
    simp [isErr, h2]
  | ok st =>
    have h2 : files.any fileRaisesMain = false := by
      rw [← isErr_mainPass files initLinter, hm]
      rfl
    rw [isErr_rescanPass files st, h2]
    simp

/-! ## Claim C6: what `configure` raises -/

/-- **C6 (counterexample).** A well-formed directive (two colons) whose
target is the name of a registered report and not a rule key does **not**
complete without raising: `report.configure(param, value, *values)` raises
`AttributeError`, because the registered report classes in
`src/robocop/reports/reports.py` define no `configure` method.  It is also
not a `ConfigGeneralError`, so the claim's "in every other case configure
completes without raising" is false at this input. -/
theorem report_configure_attribute_error_cex :
    configureOne ⟨[], ["rules_by_id"]⟩ "rules_by_id:p:v" =
      Except.error (CfgError.attributeError "report object has no attribute configure") ∧
    raisesConfigGeneral (configureOne ⟨[], ["rules_by_id"]⟩ "rules_by_id:p:v") = false := by
  exact ⟨rfl, rfl⟩

/-- **C6 (amended).** The configure operation raises `ConfigGeneralError`
iff the directive has fewer than two colon separators, or its target
matches neither a known rule key nor a registered report name, or the
target is a known rule and the parameter is neither `severity` nor one of
that rule's declared configurable parameters (`configFails`, the claim's
condition word for word).  But it does not complete in every other case: a
well-formed directive whose target is a registered report's name raises
`AttributeError` (`configAttrRaises`), because neither registered report
class defines a `configure` method; only known-rule directives with
`severity` or a declared parameter complete without raising. -/
theorem configure_error_characterization (st : RcConfigState) (config : String) :
    raisesConfigGeneral (configureOne st config) = configFails st config ∧
    raisesAttribute (configureOne st config) = configAttrRaises st config := by
  unfold configureOne configFails configAttrRaises
  cases hp : cfgParts config with
  | nil => exact ⟨rfl, rfl⟩
  | cons a t =>
    cases t with
    | nil => exact ⟨rfl, rfl⟩
    | cons b t2 =>
      cases t2 with
      | nil => exact ⟨rfl, rfl⟩
      | cons v rest =>
        dsimp only
        cases hf : alistFind a st.rules with
        | none =>
          by_cases hr : a ∈ st.reportNames
          · simp [hr, raisesConfigGeneral, raisesAttribute]
          · simp [hr, raisesConfigGeneral, raisesAttribute]
        | some r =>
          by_cases hs : b = "severity"
          · simp [hs, raisesConfigGeneral, raisesAttribute]
          · by_cases hc : b ∈ r.configurables
            · simp [hs, hc, raisesConfigGeneral, raisesAttribute]
            · simp [hs, hc, raisesConfigGeneral, raisesAttribute]

/-! ## Claim C7: duplicate rule detection in `register_checker` -/

theorem alistFind_set_ne {α : Type} (st : List (String × α)) (k k' : String) (v : α)
    (h : ¬ k' = k) : alistFind k (alistSet k' v st) = alistFind k st := by
  rw [alistFind_set, if_neg h]

/-- On the successful path, `regGo` never touches existing registry keys. -/
theorem regGo_ok_preserved (cn : String) (rs : List (String × RRule)) :
    ∀ (reg reg2 : Registry), regGo cn rs reg = Except.ok reg2 →
      ∀ (k : String) (v : RRule × String), alistFind k reg = some v →
        alistFind k reg2 = some v := by
  induction rs with
  | nil =>
    intro reg reg2 hok k v h
    cases hok
    exact h
  | cons p rest ih =>
    obtain ⟨n, r⟩ := p
    intro reg reg2 hok k v hkv
    unfold regGo at hok
    cases hf1 : alistFind n reg with
    | some q =>
      rw [hf1] at hok
      cases hok
    | none =>
      rw [hf1] at hok
      cases hf2 : alistFind r.rule_id reg with
      | some q =>
        rw [hf2] at hok
        cases hok
      | none =>
        rw [hf2] at hok
        have hkn : ¬ n = k := by
          intro h
          rw [h] at hf1
          rw [hf1] at hkv
          cases hkv
        have hki : ¬ r.rule_id = k := by
          intro h
          rw [h] at hf2
          rw [hf2] at hkv
          cases hkv
        refine ih _ _ hok k v ?_
        rw [alistFind_set_ne _ _ _ _ hki, alistFind_set_ne _ _ _ _ hkn]
        exact hkv

/-- On the successful path, no processed rule conflicted with the registry
`regGo` started from. -/
theorem regGo_ok_no_conflict (cn : String) (rs : List (String × RRule)) :
    ∀ (reg reg2 : Registry), regGo cn rs reg = Except.ok reg2 →
      ∀ p ∈ rs, alistFind p.1 reg = none ∧ alistFind p.2.rule_id reg = none := by
  induction rs with
  | nil =>
    intro reg reg2 _ p hp
    cases hp
  | cons hd rest ih =>
    obtain ⟨n, r⟩ := hd
    intro reg reg2 hok p hp
    unfold regGo at hok
    cases hf1 : alistFind n reg with
    | some q =>
      rw [hf1] at hok
      cases hok
    | none =>
      rw [hf1] at hok
      cases hf2 : alistFind r.rule_id reg with
      | some q =>
        rw [hf2] at hok
        cases hok
      | none =>
        rw [hf2] at hok
        rcases List.mem_cons.mp hp with he | hm
        · rw [he]
          exact ⟨hf1, hf2⟩
        · have h2 := ih _ _ hok p hm
          have htrans : ∀ k : String,
              alistFind k (alistSet r.rule_id (r, cn) (alistSet n (r, cn) reg)) = none →
              alistFind k reg = none := by
            intro k h
            rw [alistFind_set] at h
            by_cases hik : r.rule_id = k
            · rw [if_pos hik] at h
              cases h
            · rw [if_neg hik, alistFind_set] at h
              by_cases hnk : n = k
              · rw [if_pos hnk] at h
                cases h
              · rw [if_neg hnk] at h
                exact h
          exact ⟨htrans _ h2.1, htrans _ h2.2⟩

/-- A `DuplicatedRuleError` thrown by `regGo` names, as `checker_prev`, the
checker stored under the conflicting key: either the current checker (the
key was inserted earlier in this very call) or a previous registrant. -/
theorem regGo_error_names (cn : String) (rs : List (String × RRule)) (reg0 : Registry) :
    ∀ (reg : Registry) (e : DupError),
      (∀ (k : String) (q : RRule) (pc : String), alistFind k reg = some (q, pc) →
        pc = cn ∨ ∃ q0, alistFind k reg0 = some (q0, pc)) →
      regGo cn rs reg = Except.error e →
      e.checker_prev = cn ∨ ∃ q0, alistFind e.key reg0 = some (q0, e.checker_prev) := by
  induction rs with
  | nil =>
    intro reg e _ herr
    cases herr
  | cons hd rest ih =>
    obtain ⟨n, r⟩ := hd
    intro reg e hinv herr
    unfold regGo at herr
    cases hf1 : alistFind n reg with
    | some q =>
      rw [hf1] at herr
      cases herr
      exact hinv n q.1 q.2 (by rw [hf1])
    | none =>
      rw [hf1] at herr
      cases hf2 : alistFind r.rule_id reg with
      | some q =>
        rw [hf2] at herr
        cases herr
        exact hinv r.rule_id q.1 q.2 (by rw [hf2])
      | none =>
        rw [hf2] at herr
        refine ih _ e ?_ herr
        intro k q pc hk
        rw [alistFind_set] at hk
        by_cases hik : r.rule_id = k
        · rw [if_pos hik] at hk
          cases hk
          exact Or.inl rfl
        · rw [if_neg hik, alistFind_set] at hk
          by_cases hnk : n = k
          · rw [if_pos hnk] at hk
            cases hk
            exact Or.inl rfl
          · rw [if_neg hnk] at hk
            exact hinv k q pc hk

/-- On the successful path every processed rule ends up in the registry
under both its name and its id, owned by the registering checker. -/
theorem regGo_ok_inserted (cn : String) (rs : List (String × RRule)) :
    ∀ (reg reg2 : Registry), regGo cn rs reg = Except.ok reg2 →
      ∀ p ∈ rs, (∃ q, alistFind p.1 reg2 = some (q, cn)) ∧
        (∃ q, alistFind p.2.rule_id reg2 = some (q, cn)) := by
  induction rs with
  | nil =>
    intro reg reg2 _ p hp
    cases hp
  | cons hd rest ih =>
    obtain ⟨n, r⟩ := hd
    intro reg reg2 hok p hp
    unfold regGo at hok
    cases hf1 : alistFind n reg with
    | some q =>
      rw [hf1] at hok
      cases hok
    | none =>
      rw [hf1] at hok
      cases hf2 : alistFind r.rule_id reg with
      | some q =>
        rw [hf2] at hok
        cases hok
      | none =>
        rw [hf2] at hok
        rcases List.mem_cons.mp hp with he | hm
        · rw [he]
          have hn : alistFind n (alistSet r.rule_id (r, cn) (alistSet n (r, cn) reg)) =
              some (r, cn) := by
            rw [alistFind_set]
            by_cases hin : r.rule_id = n
            · rw [if_pos hin]
            · rw [if_neg hin, alistFind_set, if_pos rfl]
          have hi : alistFind r.rule_id (alistSet r.rule_id (r, cn) (alistSet n (r, cn) reg)) =
              some (r, cn) := by
            rw [alistFind_set, if_pos rfl]
          exact ⟨⟨r, regGo_ok_preserved cn rest _ _ hok n (r, cn) hn⟩,
                 ⟨r, regGo_ok_preserved cn rest _ _ hok r.rule_id (r, cn) hi⟩⟩
        · exact ih _ _ hok p hm


/-- **C7.** `register_checker` raises `DuplicatedRuleError` whenever any
rule of the checker being registered has a name or an id already present in
the global rule registry, and the raised error names, as the previous
registrant, the checker stored under the conflicting key (a previous
registrant for entry-time conflicts; the current checker itself when the
conflict is with a rule inserted earlier in the same call).  On success,
every rule of the checker is inserted under both its name and its id,
owned by this checker. -/
theorem register_checker_duplicate_detection (cfg : RRule → Bool) (st : RunState)
    (c : RChecker) :
    ((∃ p ∈ c.rules_map, (alistFind p.1 st.rules).isSome = true ∨
        (alistFind p.2.rule_id st.rules).isSome = true) →
      ∃ e : DupError, registerChecker cfg st c = Except.error e ∧
        (e.checker_prev = c.cname ∨ ∃ q, alistFind e.key st.rules = some (q, e.checker_prev)))
    ∧ (∀ st2 : RunState, registerChecker cfg st c = Except.ok st2 →
        ∀ p ∈ c.rules_map,
          (∃ q, alistFind p.1 st2.rules = some (q, c.cname)) ∧
          (∃ q, alistFind p.2.rule_id st2.rules = some (q, c.cname))) := by
  have hA : ∀ e : DupError,
      regGo c.cname (c.rules_map.map (fun p => (p.1, ⟨p.2.rule_id, cfg p.2⟩))) st.rules =
        Except.error e →
      registerChecker cfg st c = Except.error e := by
    intro e he
    unfold registerChecker
    dsimp only
    rw [he]
  have hB : ∀ st2 : RunState, registerChecker cfg st c = Except.ok st2 →
      ∃ reg : Registry,
        regGo c.cname (c.rules_map.map (fun p => (p.1, ⟨p.2.rule_id, cfg p.2⟩))) st.rules =
          Except.ok reg ∧ st2.rules = reg := by
    intro st2 hok
    unfold registerChecker at hok
    dsimp only at hok
    cases hgo : regGo c.cname (c.rules_map.map (fun p => (p.1, ⟨p.2.rule_id, cfg p.2⟩)))
        st.rules with
    | error e =>
      rw [hgo] at hok
      cases hok
    | ok reg =>
      rw [hgo] at hok
      cases hok
      exact ⟨reg, rfl, rfl⟩
  constructor
  · intro hconf
    cases hgo : regGo c.cname (c.rules_map.map (fun p => (p.1, ⟨p.2.rule_id, cfg p.2⟩)))
        st.rules with
    | ok reg =>
      exfalso
      obtain ⟨p, hp, hor⟩ := hconf
      have hp2 : ((p.1, (⟨p.2.rule_id, cfg p.2⟩ : RRule))) ∈
          c.rules_map.map (fun p => (p.1, (⟨p.2.rule_id, cfg p.2⟩ : RRule))) :=
        List.mem_map.mpr ⟨p, hp, rfl⟩
      have h2 := regGo_ok_no_conflict c.cname _ st.rules reg hgo _ hp2
      have h3 : alistFind p.1 st.rules = none := h2.1
      have h4 : alistFind p.2.rule_id st.rules = none := h2.2
      rcases hor with h | h
      · rw [h3] at h
        cases h
      · rw [h4] at h
        cases h
    | error e =>
      refine ⟨e, hA e hgo, ?_⟩
      exact regGo_error_names c.cname _ st.rules st.rules e
        (fun k q pc hk => Or.inr ⟨q, hk⟩) hgo
  · intro st2 hok p hp
    obtain ⟨reg, hgo, hrules⟩ := hB st2 hok
    have hp2 : ((p.1, (⟨p.2.rule_id, cfg p.2⟩ : RRule))) ∈
        c.rules_map.map (fun p => (p.1, (⟨p.2.rule_id, cfg p.2⟩ : RRule))) :=
      List.mem_map.mpr ⟨p, hp, rfl⟩
    have h2 := regGo_ok_inserted c.cname _ st.rules reg hgo _ hp2
    rw [hrules]
    exact ⟨h2.1, h2.2⟩

/-- Witness for C7: registering checker `c2` with a rule named
`line-too-long` into the registry left by checker `c1` (which already owns
`line-too-long`) raises a `DuplicatedRuleError` naming `c1`. -/
theorem register_checker_duplicate_witness :
    ∃ e : DupError,
      registerChecker (fun _ => true)
        ⟨[("line-too-long", (⟨"0101", true⟩, "c1")), ("0101", (⟨"0101", true⟩, "c1"))], []⟩
        ⟨"c2", [("line-too-long", ⟨"0202", true⟩)], false⟩ = Except.error e ∧
      (e.checker_prev = "c2" ∨ ∃ q, alistFind e.key
        ([("line-too-long", (⟨"0101", true⟩, "c1")),
          ("0101", (⟨"0101", true⟩, "c1"))] : Registry) = some (q, e.checker_prev)) :=
  (register_checker_duplicate_detection (fun _ => true)
    ⟨[("line-too-long", (⟨"0101", true⟩, "c1")), ("0101", (⟨"0101", true⟩, "c1"))], []⟩
    ⟨"c2", [("line-too-long", ⟨"0202", true⟩)], false⟩).1 (by decide)

end Robocop
